import Mathlib

/-!
# SOAP envelope builder (`envelope_builder.go`)

A shallow embedding of the envelope builder of package `soap` and the
properties of its contract.

Modelling conventions.

* A Go result pair `(T, error)` is a Lean pair `Option T × Option Error`:
  `none` on the left is the nil value, `none` on the right is the nil error.
* A method with a pointer receiver takes the builder state and, when it can be
  called for its effect, gives the state after the call back next to its result.
* `xml.Marshal` belongs to the Go standard library; every definition that calls
  it takes it as the parameter `marshal`, so each theorem holds for every
  marshaller.
* `interface{}` items are the elements of an arbitrary type `Item`.
-/

namespace Soap

/-- Go `[]byte`; only the length of a byte slice is ever inspected by the builder. -/
abbrev Bytes := List UInt8

/-- Go `map[string]string` when it is not nil, as its list of bindings. -/
abbrev XmlnsMap := List (String × String)

/-- Go `error` values: the package sentinel `ErrInvalidVersion` and every other
error value, such as the ones `xml.Marshal` reports. -/
inductive Error where
  | ErrInvalidVersion
  | other (msg : String)
  deriving DecidableEq, Repr

/-- Modelled from the spec: the constant `V11` is declared outside
`envelope_builder.go`; the spec names the supported identifiers "1.1" and "1.2". -/
def V11 : String := "1.1"

/-- Modelled from the spec: the constant `V12` is declared outside
`envelope_builder.go`; the spec names the supported identifiers "1.1" and "1.2". -/
def V12 : String := "1.2"

/-- Modelled from the spec: the helper `isValidVersion` is declared outside
`envelope_builder.go`; the spec describes it as the membership test against the
two supported identifiers. -/
def isValidVersion (v : String) : Bool :=
  v == V11 || v == V12

/-- Modelled from the spec: the type `Header` is declared outside
`envelope_builder.go`; the builder fills its field `Content` with marshalled bytes. -/
structure Header where
  Content : Bytes
  deriving DecidableEq, Repr

/-- Modelled from the spec: the type `Body11` is declared outside
`envelope_builder.go`; the builder fills its field `PayloadElem`. -/
structure Body11 where
  PayloadElem : Bytes
  deriving DecidableEq, Repr

/-- Modelled from the spec: the type `Body12` is declared outside
`envelope_builder.go`; the builder fills its field `PayloadElem`. -/
structure Body12 where
  PayloadElem : Bytes
  deriving DecidableEq, Repr

/-- Modelled from the spec: the type `Envelope11` is declared outside
`envelope_builder.go`. The builder sets `BodyElem` and `Xmlns`; the optional
header of the spec's data model is the field `HeaderElem`, nil (`none`) in a
composite literal that does not mention it. -/
structure Envelope11 where
  HeaderElem : Option Header
  BodyElem : Body11
  Xmlns : Option XmlnsMap
  deriving DecidableEq, Repr

/-- Modelled from the spec: the type `Envelope12` is declared outside
`envelope_builder.go`; it has the shape of `Envelope11` with a `Body12`. -/
structure Envelope12 where
  HeaderElem : Option Header
  BodyElem : Body12
  Xmlns : Option XmlnsMap
  deriving DecidableEq, Repr

/-- Modelled from the spec: the interface `Envelope` is declared outside
`envelope_builder.go`; its two implementations are `*Envelope11` and
`*Envelope12`. The nil interface value is `none : Option Envelope`. -/
inductive Envelope where
  | env11 (e : Envelope11)
  | env12 (e : Envelope12)
  deriving DecidableEq, Repr

/-- Modelled from the spec: the method `setHeader` is declared outside
`envelope_builder.go`; the spec describes it as the internal mutator that
attaches a Header to the envelope. -/
def Envelope.setHeader (env : Envelope) (hdr : Header) : Envelope :=
  match env with
  | .env11 e => .env11 { e with HeaderElem := some hdr }
  | .env12 e => .env12 { e with HeaderElem := some hdr }

/-- The header attached to an envelope, if any. -/
def Envelope.header : Envelope → Option Header
  | .env11 e => e.HeaderElem
  | .env12 e => e.HeaderElem

/-- The content of the body element of an envelope. -/
def Envelope.bodyContent : Envelope → Bytes
  | .env11 e => e.BodyElem.PayloadElem
  | .env12 e => e.BodyElem.PayloadElem

/-- The namespace mapping carried by an envelope (`none` is the nil map). -/
def Envelope.xmlnsOf : Envelope → Option XmlnsMap
  | .env11 e => e.Xmlns
  | .env12 e => e.Xmlns

/-- Whether the envelope is the 1.1 variant. -/
def Envelope.isEnvelope11 : Envelope → Bool
  | .env11 _ => true
  | .env12 _ => false

/-- Whether the envelope is the 1.2 variant. -/
def Envelope.isEnvelope12 : Envelope → Bool
  | .env11 _ => false
  | .env12 _ => true

/-- The struct `EnvBuilder`: a nil slice is the empty list, a nil envelope and a
nil map are `none`. -/
structure EnvBuilder (Item : Type) where
  headers : List Item
  payload : List Item
  env : Option Envelope
  xmlns : Option XmlnsMap

variable {Item Request : Type}

/-- The method `SetHeaders`: the value is the receiver after the assignment, which
is also the builder the method returns. -/
def EnvBuilder.SetHeaders (bldr : EnvBuilder Item) (hdrs : List Item) : EnvBuilder Item :=
  { bldr with headers := hdrs }

/-- The method `SetPayload`: the value is the receiver after the assignment, which
is also the builder the method returns. -/
def EnvBuilder.SetPayload (bldr : EnvBuilder Item) (items : List Item) : EnvBuilder Item :=
  { bldr with payload := items }

/-- The method `Env`. -/
def EnvBuilder.Env (bldr : EnvBuilder Item) : Option Envelope :=
  bldr.env

/-- The method `Build`: the returned pair `(Envelope, error)` and the builder
after the call. The body assigns to no field of the receiver, so the builder
after the call is the receiver on every path. -/
def EnvBuilder.Build (marshal : List Item → Bytes × Option Error)
    (bldr : EnvBuilder Item) (version : String) :
    (Option Envelope × Option Error) × EnvBuilder Item :=
  if !isValidVersion version then
    ((none, some Error.ErrInvalidVersion), bldr)
  else
    match marshal bldr.payload with
    | (_, some err) => ((none, some err), bldr)
    | (bdy, none) =>
      let env : Envelope :=
        Envelope.env11 { HeaderElem := none, BodyElem := { PayloadElem := bdy }, Xmlns := bldr.xmlns }
      let env : Envelope :=
        if version = V12 then
          Envelope.env12 { HeaderElem := none, BodyElem := { PayloadElem := bdy }, Xmlns := bldr.xmlns }
        else env
      if bldr.headers.length > 0 then
        match marshal bldr.headers with
        | (_, some err) => ((none, some err), bldr)
        | (hdr, none) =>
          if hdr.length > 0 then
            ((some (env.setHeader { Content := hdr }), none), bldr)
          else
            ((some env, none), bldr)
      else
        ((some env, none), bldr)

/-- The method `BuildHTTPRequest`. The method `GetHTTPRequest` of the envelope
types is declared outside `envelope_builder.go` and is a parameter. The outer
`none` is the run-time panic of a method call through a nil interface value. -/
def EnvBuilder.BuildHTTPRequest (marshal : List Item → Bytes × Option Error)
    (GetHTTPRequest : Envelope → String → Option Request × Option Error)
    (bldr : EnvBuilder Item) (version : String) (action : String) :
    Option ((Option Request × Option Error) × EnvBuilder Item) :=
  match bldr.Build marshal version with
  | ((_, some err), b) => some ((none, some err), b)
  | ((some env, none), b) => some (GetHTTPRequest env action, b)
  | ((none, none), _) => none

/-- The function `NewEnvBuilder`: the zero value of the struct. -/
def NewEnvBuilder : EnvBuilder Item :=
  { headers := [], payload := [], env := none, xmlns := none }

/-- The type `EnvBuilderOption`, a `func(*EnvBuilder)`: its effect on the builder. -/
abbrev EnvBuilderOption (Item : Type) := EnvBuilder Item → EnvBuilder Item

/-- The function `SetXmlns`. -/
def SetXmlns (xmlns : Option XmlnsMap) : EnvBuilderOption Item :=
  fun bldr => { bldr with xmlns := xmlns }

/-- The local variable `bldr` of `NewEnvelope` when the loop over `opts` is done. -/
def NewEnvelopeBldr (header payload : Item) (opts : List (EnvBuilderOption Item)) :
    EnvBuilder Item :=
  opts.foldl (fun bldr opt => opt bldr)
    (((NewEnvBuilder : EnvBuilder Item).SetHeaders [header]).SetPayload [payload])

/-- The function `NewEnvelope`. -/
def NewEnvelope (marshal : List Item → Bytes × Option Error) (version : String)
    (header payload : Item) (opts : List (EnvBuilderOption Item)) :
    Option Envelope × Option Error :=
  ((NewEnvelopeBldr header payload opts).Build marshal version).1

/-- A marshaller for natural-number items, used to evaluate the builder: the
item `0` is not marshallable, the items above `255` marshal to nothing and every
other item marshals to one byte. -/
def sampleMarshal (items : List Nat) : Bytes × Option Error :=
  if 0 ∈ items then ([], some (Error.other "unsupported type"))
  else ((items.filter (fun n => n < 256)).map UInt8.ofNat, none)

/-- The description of `NewEnvelope` in words: the options are applied one after
the other, first to last, to a fresh builder on which `SetHeaders(header)` and
`SetPayload(payload)` were called. -/
def applyOptsInOrder : EnvBuilder Item → List (EnvBuilderOption Item) → EnvBuilder Item
  | bldr, [] => bldr
  | bldr, opt :: rest => applyOptsInOrder (opt bldr) rest

/-- The description of `NewEnvelope` in words: what `Build(version)` returns on the
builder configured by `applyOptsInOrder`. -/
def NewEnvelopeSpec (marshal : List Item → Bytes × Option Error) (version : String)
    (header payload : Item) (opts : List (EnvBuilderOption Item)) :
    Option Envelope × Option Error :=
  ((applyOptsInOrder
      (((NewEnvBuilder : EnvBuilder Item).SetHeaders [header]).SetPayload [payload])
      opts).Build marshal version).1

/-- The envelope `Build` starts from, before any header is attached. -/
def baseEnvelope (bldr : EnvBuilder Item) (version : String) (bdy : Bytes) : Envelope :=
  if version = V12 then
    Envelope.env12 { HeaderElem := none, BodyElem := { PayloadElem := bdy }, Xmlns := bldr.xmlns }
  else
    Envelope.env11 { HeaderElem := none, BodyElem := { PayloadElem := bdy }, Xmlns := bldr.xmlns }

/-- The version identifier of the variant an envelope is. -/
def Envelope.versionOf : Envelope → String
  | .env11 _ => V11
  | .env12 _ => V12

/-- Modelled from the spec: the root namespace declarations of an envelope, which
the serialization of the envelope types (declared outside `envelope_builder.go`)
renders; the spec describes them as "a mandatory default envelope namespace plus
caller-supplied extra prefixes". -/
structure RootNamespaces where
  envelopeNamespace : String
  extraPrefixes : XmlnsMap
  deriving DecidableEq, Repr

/-- Modelled from the spec: the serialization of the envelope types is declared
outside `envelope_builder.go`. By the spec each variant declares its own root
namespace URI, the one the helper `namespaceFor` gives for its version, and the
prefix declarations supplied by configuration are rendered as extra attributes
on the root element; a nil mapping supplies none. The helper `namespaceFor` is
declared outside `envelope_builder.go` as well and is a parameter. -/
def Envelope.rootNamespaces (namespaceFor : String → String) (env : Envelope) :
    RootNamespaces :=
  { envelopeNamespace := namespaceFor env.versionOf,
    extraPrefixes := match env.xmlnsOf with
      | some m => m
      | none => [] }

/-- The envelope namespaces of the two SOAP standards, used to evaluate
`Envelope.rootNamespaces`. -/
def sampleNamespaceFor (v : String) : String :=
  if v = V12 then "http://www.w3.org/2003/05/soap-envelope"
  else "http://schemas.xmlsoap.org/soap/envelope/"

/-! ## Auxiliary lemmas -/

theorem isValidVersion_iff (v : String) :
    isValidVersion v = true ↔ v = "1.1" ∨ v = "1.2" := by
  simp [isValidVersion, V11, V12]

theorem isValidVersion_false_of_ne (v : String) (h11 : v ≠ "1.1") (h12 : v ≠ "1.2") :
    isValidVersion v = false := by
  simp [isValidVersion, V11, V12, h11, h12]

/-- The builder after `Build` is the receiver, on every path. -/
theorem Build_state (marshal : List Item → Bytes × Option Error)
    (bldr : EnvBuilder Item) (version : String) :
    (bldr.Build marshal version).2 = bldr := by
  unfold EnvBuilder.Build
  repeat (first | rfl | split)

/-- The result of `Build` when the version is not supported. -/
theorem Build_result_invalid (marshal : List Item → Bytes × Option Error)
    (bldr : EnvBuilder Item) (version : String) (hv : isValidVersion version = false) :
    (bldr.Build marshal version).1 = (none, some Error.ErrInvalidVersion) := by
  simp [EnvBuilder.Build, hv]

/-- The result of `Build` when marshalling the payload fails. -/
theorem Build_result_payload_error (marshal : List Item → Bytes × Option Error)
    (bldr : EnvBuilder Item) (version : String) (hv : isValidVersion version = true)
    (e : Error) (hp : (marshal bldr.payload).2 = some e) :
    (bldr.Build marshal version).1 = (none, some e) := by
  rcases hm : marshal bldr.payload with ⟨bdy, err⟩
  rw [hm] at hp
  simp only at hp
  subst hp
  simp [EnvBuilder.Build, hv, hm]

/-- The result of `Build` when the payload marshals and the header list is empty. -/
theorem Build_result_no_headers (marshal : List Item → Bytes × Option Error)
    (bldr : EnvBuilder Item) (version : String) (hv : isValidVersion version = true)
    (hp : (marshal bldr.payload).2 = none) (hh : bldr.headers = []) :
    (bldr.Build marshal version).1
      = (some (baseEnvelope bldr version (marshal bldr.payload).1), none) := by
  rcases hm : marshal bldr.payload with ⟨bdy, err⟩
  rw [hm] at hp
  simp only at hp
  subst hp
  simp [EnvBuilder.Build, hv, hm, hh, baseEnvelope]

/-- The result of `Build` when the payload marshals and marshalling a non-empty
header list fails. -/
theorem Build_result_header_error (marshal : List Item → Bytes × Option Error)
    (bldr : EnvBuilder Item) (version : String) (hv : isValidVersion version = true)
    (hp : (marshal bldr.payload).2 = none) (hh : bldr.headers ≠ [])
    (e : Error) (he : (marshal bldr.headers).2 = some e) :
    (bldr.Build marshal version).1 = (none, some e) := by
  rcases hm : marshal bldr.payload with ⟨bdy, err⟩
  rw [hm] at hp
  simp only at hp
  subst hp
  rcases hm2 : marshal bldr.headers with ⟨hdr, err2⟩
  rw [hm2] at he
  simp only at he
  subst he
  have hlen : 0 < bldr.headers.length := List.length_pos.mpr hh
  simp [EnvBuilder.Build, hv, hm, hm2, hlen]

/-- The result of `Build` when the payload and a non-empty header list both marshal. -/
theorem Build_result_headers_ok (marshal : List Item → Bytes × Option Error)
    (bldr : EnvBuilder Item) (version : String) (hv : isValidVersion version = true)
    (hp : (marshal bldr.payload).2 = none) (hh : bldr.headers ≠ [])
    (he : (marshal bldr.headers).2 = none) :
    (bldr.Build marshal version).1
      = (some (if (marshal bldr.headers).1 = [] then
                 baseEnvelope bldr version (marshal bldr.payload).1
               else
                 (baseEnvelope bldr version (marshal bldr.payload).1).setHeader
                   { Content := (marshal bldr.headers).1 }), none) := by
  rcases hm : marshal bldr.payload with ⟨bdy, err⟩
  rw [hm] at hp
  simp only at hp
  subst hp
  rcases hm2 : marshal bldr.headers with ⟨hdr, err2⟩
  rw [hm2] at he
  simp only at he
  subst he
  have hlen : 0 < bldr.headers.length := List.length_pos.mpr hh
  by_cases hz : hdr = []
  · simp [EnvBuilder.Build, hv, hm, hm2, hlen, hz, baseEnvelope]
  · have hpos : 0 < hdr.length := List.length_pos.mpr hz
    simp [EnvBuilder.Build, hv, hm, hm2, hlen, hz, hpos, baseEnvelope]

theorem baseEnvelope_header (bldr : EnvBuilder Item) (version : String) (bdy : Bytes) :
    (baseEnvelope bldr version bdy).header = none := by
  unfold baseEnvelope
  split <;> rfl

theorem baseEnvelope_bodyContent (bldr : EnvBuilder Item) (version : String) (bdy : Bytes) :
    (baseEnvelope bldr version bdy).bodyContent = bdy := by
  unfold baseEnvelope
  split <;> rfl

theorem baseEnvelope_xmlnsOf (bldr : EnvBuilder Item) (version : String) (bdy : Bytes) :
    (baseEnvelope bldr version bdy).xmlnsOf = bldr.xmlns := by
  unfold baseEnvelope
  split <;> rfl

theorem setHeader_header (env : Envelope) (hdr : Header) :
    (env.setHeader hdr).header = some hdr := by
  cases env <;> rfl

theorem setHeader_bodyContent (env : Envelope) (hdr : Header) :
    (env.setHeader hdr).bodyContent = env.bodyContent := by
  cases env <;> rfl

theorem setHeader_xmlnsOf (env : Envelope) (hdr : Header) :
    (env.setHeader hdr).xmlnsOf = env.xmlnsOf := by
  cases env <;> rfl

theorem setHeader_isEnvelope11 (env : Envelope) (hdr : Header) :
    (env.setHeader hdr).isEnvelope11 = env.isEnvelope11 := by
  cases env <;> rfl

theorem setHeader_isEnvelope12 (env : Envelope) (hdr : Header) :
    (env.setHeader hdr).isEnvelope12 = env.isEnvelope12 := by
  cases env <;> rfl

/-- Every successful `Build` is one of the two shapes of the lemmas above. -/
theorem Build_ok_cases (marshal : List Item → Bytes × Option Error)
    (bldr : EnvBuilder Item) (version : String) (env : Envelope)
    (h : (bldr.Build marshal version).1 = (some env, none)) :
    isValidVersion version = true ∧ (marshal bldr.payload).2 = none ∧
      ((bldr.headers = [] ∧ env = baseEnvelope bldr version (marshal bldr.payload).1) ∨
       (bldr.headers ≠ [] ∧ (marshal bldr.headers).2 = none ∧
          env = (if (marshal bldr.headers).1 = [] then
                   baseEnvelope bldr version (marshal bldr.payload).1
                 else
                   (baseEnvelope bldr version (marshal bldr.payload).1).setHeader
                     { Content := (marshal bldr.headers).1 }))) := by
  cases hv : isValidVersion version with
  | false =>
    rw [Build_result_invalid marshal bldr version hv] at h
    simp at h
  | true =>
    cases hp : (marshal bldr.payload).2 with
    | some e =>
      rw [Build_result_payload_error marshal bldr version hv e hp] at h
      simp at h
    | none =>
      refine ⟨rfl, rfl, ?_⟩
      by_cases hh : bldr.headers = []
      · rw [Build_result_no_headers marshal bldr version hv hp hh] at h
        simp only [Prod.mk.injEq, Option.some.injEq, and_true] at h
        exact Or.inl ⟨hh, h.symm⟩
      · cases he : (marshal bldr.headers).2 with
        | some e =>
          rw [Build_result_header_error marshal bldr version hv hp hh e he] at h
          simp at h
        | none =>
          rw [Build_result_headers_ok marshal bldr version hv hp hh he] at h
          simp only [Prod.mk.injEq, Option.some.injEq, and_true] at h
          exact Or.inr ⟨hh, rfl, h.symm⟩

/-- The two shapes of a result of `Build`: an error and no envelope, or an
envelope and no error. -/
theorem Build_error_or_ok (marshal : List Item → Bytes × Option Error)
    (bldr : EnvBuilder Item) (version : String) :
    (∃ e, (bldr.Build marshal version).1 = (none, some e)) ∨
    (∃ env, (bldr.Build marshal version).1 = (some env, none)) := by
  cases hv : isValidVersion version with
  | false => exact Or.inl ⟨_, Build_result_invalid marshal bldr version hv⟩
  | true =>
    cases hp : (marshal bldr.payload).2 with
    | some e => exact Or.inl ⟨e, Build_result_payload_error marshal bldr version hv e hp⟩
    | none =>
      by_cases hh : bldr.headers = []
      · exact Or.inr ⟨_, Build_result_no_headers marshal bldr version hv hp hh⟩
      · cases he : (marshal bldr.headers).2 with
        | some e =>
          exact Or.inl ⟨e, Build_result_header_error marshal bldr version hv hp hh e he⟩
        | none => exact Or.inr ⟨_, Build_result_headers_ok marshal bldr version hv hp hh he⟩

/-- The loop over the options is the application of the options in order. -/
theorem foldl_eq_applyOptsInOrder (opts : List (EnvBuilderOption Item))
    (bldr : EnvBuilder Item) :
    opts.foldl (fun b opt => opt b) bldr = applyOptsInOrder bldr opts := by
  induction opts generalizing bldr with
  | nil => rfl
  | cons opt rest ih => simpa [applyOptsInOrder] using ih (opt bldr)

/-- Options that leave the header list alone leave it alone together. -/
theorem applyOptsInOrder_headers (opts : List (EnvBuilderOption Item))
    (bldr : EnvBuilder Item)
    (hopts : ∀ opt ∈ opts, ∀ b : EnvBuilder Item, (opt b).headers = b.headers) :
    (applyOptsInOrder bldr opts).headers = bldr.headers := by
  induction opts generalizing bldr with
  | nil => rfl
  | cons opt rest ih =>
    have hrest : ∀ o ∈ rest, ∀ b : EnvBuilder Item, (o b).headers = b.headers :=
      fun o ho => hopts o (List.mem_cons_of_mem _ ho)
    rw [applyOptsInOrder, ih (opt bldr) hrest]
    exact hopts opt (List.mem_cons_self _ _) bldr

/-- Applying a list of options and then one more. -/
theorem applyOptsInOrder_append (pre : List (EnvBuilderOption Item))
    (opt : EnvBuilderOption Item) (bldr : EnvBuilder Item) :
    applyOptsInOrder bldr (pre ++ [opt]) = opt (applyOptsInOrder bldr pre) := by
  induction pre generalizing bldr with
  | nil => rfl
  | cons o rest ih => simpa [applyOptsInOrder] using ih (o bldr)

/-- The namespace mapping of a built envelope is the field `xmlns` of the builder. -/
theorem Build_ok_xmlnsOf (marshal : List Item → Bytes × Option Error)
    (bldr : EnvBuilder Item) (version : String) (env : Envelope)
    (h : (bldr.Build marshal version).1 = (some env, none)) :
    env.xmlnsOf = bldr.xmlns := by
  obtain ⟨-, -, hcase⟩ := Build_ok_cases marshal bldr version env h
  rcases hcase with ⟨-, henv⟩ | ⟨-, -, henv⟩
  · subst henv
    exact baseEnvelope_xmlnsOf _ _ _
  · subst henv
    split
    · exact baseEnvelope_xmlnsOf _ _ _
    · rw [setHeader_xmlnsOf]; exact baseEnvelope_xmlnsOf _ _ _

/-- The header of an envelope built from a non-empty header list. -/
theorem Build_ok_header_of_nonempty (marshal : List Item → Bytes × Option Error)
    (bldr : EnvBuilder Item) (version : String) (env : Envelope)
    (h : (bldr.Build marshal version).1 = (some env, none)) (hh : bldr.headers ≠ []) :
    env.header = if (marshal bldr.headers).1 = [] then none
                 else some { Content := (marshal bldr.headers).1 } := by
  obtain ⟨-, -, hcase⟩ := Build_ok_cases marshal bldr version env h
  rcases hcase with ⟨hnil, -⟩ | ⟨-, -, henv⟩
  · exact absurd hnil hh
  · subst henv
    split
    · exact baseEnvelope_header _ _ _
    · exact setHeader_header _ _

theorem baseEnvelope_versionOf (bldr : EnvBuilder Item) (version : String) (bdy : Bytes)
    (hv : isValidVersion version = true) :
    (baseEnvelope bldr version bdy).versionOf = version := by
  rcases (isValidVersion_iff version).mp hv with h | h
  · subst h
    simp [baseEnvelope, V11, V12, Envelope.versionOf]
  · subst h
    simp [baseEnvelope, V12, Envelope.versionOf]

theorem setHeader_versionOf (env : Envelope) (hdr : Header) :
    (env.setHeader hdr).versionOf = env.versionOf := by
  cases env <;> rfl

/-- The variant of a built envelope is the one of the requested version. -/
theorem Build_ok_versionOf (marshal : List Item → Bytes × Option Error)
    (bldr : EnvBuilder Item) (version : String) (env : Envelope)
    (h : (bldr.Build marshal version).1 = (some env, none)) :
    env.versionOf = version := by
  obtain ⟨hv, -, hcase⟩ := Build_ok_cases marshal bldr version env h
  rcases hcase with ⟨-, henv⟩ | ⟨-, -, henv⟩
  · subst henv
    exact baseEnvelope_versionOf _ _ _ hv
  · subst henv
    split
    · exact baseEnvelope_versionOf _ _ _ hv
    · rw [setHeader_versionOf]; exact baseEnvelope_versionOf _ _ _ hv

/-! ## The claims -/

/-- C1: for every builder state, every marshaller and every version string
other than "1.1" and "1.2", `Build` returns the nil envelope together with
`ErrInvalidVersion`. The marshaller is arbitrary, so the result is the same when
marshalling the payload or the headers would fail: the version check comes first. -/
theorem Build_invalid_version (marshal : List Item → Bytes × Option Error)
    (bldr : EnvBuilder Item) (version : String)
    (h11 : version ≠ "1.1") (h12 : version ≠ "1.2") :
    (bldr.Build marshal version).1 = (none, some Error.ErrInvalidVersion) :=
  Build_result_invalid marshal bldr version (isValidVersion_false_of_ne version h11 h12)

/-- Witness for C1: version "9.9" on a builder whose payload and headers the sample
marshaller rejects. -/
theorem Build_invalid_version_witness :
    "9.9" ≠ "1.1" ∧ "9.9" ≠ "1.2" ∧
    (sampleMarshal [0]).2 = some (Error.other "unsupported type") ∧
    ((((NewEnvBuilder : EnvBuilder Nat).SetHeaders [0]).SetPayload [0]).Build
        sampleMarshal "9.9").1 = (none, some Error.ErrInvalidVersion) :=
  ⟨by decide, by decide, by decide,
    Build_invalid_version sampleMarshal _ "9.9" (by decide) (by decide)⟩

/-- C2 (evaluation of the code): on a fresh builder `Build("1.1")` succeeds and
returns an envelope, and so does the `Build` inside `BuildHTTPRequest`, yet
`Env()` on the builder after either call is still nil: `Build` never assigns the
field `env`. -/
theorem Build_leaves_Env_nil :
    ((NewEnvBuilder : EnvBuilder Nat).Build sampleMarshal "1.1").1
      = (some (Envelope.env11
          { HeaderElem := none, BodyElem := { PayloadElem := [] }, Xmlns := none }), none) ∧
    ((NewEnvBuilder : EnvBuilder Nat).Build sampleMarshal "1.1").2.Env = none ∧
    (((NewEnvBuilder : EnvBuilder Nat).BuildHTTPRequest sampleMarshal
        (fun _ action => (some action, none)) "1.1" "urn:act").map
          (fun r => (r.1, r.2.Env))) = some ((some "urn:act", none), none) := by
  decide

/-- C3: whenever `Build` returns an error, the builder after the call is the
builder before it (so `Env()`, the header list, the payload list and the
namespace mapping are unchanged) and the envelope returned next to the error is
nil. -/
theorem Build_error_keeps_builder (marshal : List Item → Bytes × Option Error)
    (bldr : EnvBuilder Item) (version : String)
    (herr : (bldr.Build marshal version).1.2 ≠ none) :
    (bldr.Build marshal version).2 = bldr ∧
    (bldr.Build marshal version).2.Env = bldr.Env ∧
    (bldr.Build marshal version).2.headers = bldr.headers ∧
    (bldr.Build marshal version).2.payload = bldr.payload ∧
    (bldr.Build marshal version).2.xmlns = bldr.xmlns ∧
    (bldr.Build marshal version).1.1 = none := by
  have hs := Build_state marshal bldr version
  refine ⟨hs, by rw [hs], by rw [hs], by rw [hs], by rw [hs], ?_⟩
  cases hv : isValidVersion version with
  | false => rw [Build_result_invalid marshal bldr version hv]
  | true =>
    cases hp : (marshal bldr.payload).2 with
    | some e => rw [Build_result_payload_error marshal bldr version hv e hp]
    | none =>
      by_cases hh : bldr.headers = []
      · rw [Build_result_no_headers marshal bldr version hv hp hh] at herr
        exact absurd rfl herr
      · cases he : (marshal bldr.headers).2 with
        | some e => rw [Build_result_header_error marshal bldr version hv hp hh e he]
        | none =>
          rw [Build_result_headers_ok marshal bldr version hv hp hh he] at herr
          exact absurd rfl herr

/-- Witness for C3: a header list the sample marshaller rejects, on a builder
that already holds a payload and a namespace mapping. -/
theorem Build_error_keeps_builder_witness :
    ((((SetXmlns (some [("ns", "urn:x")]) (NewEnvBuilder : EnvBuilder Nat)).SetHeaders
        [0]).SetPayload [7]).Build sampleMarshal "1.2").1.2 ≠ none ∧
    ((((SetXmlns (some [("ns", "urn:x")]) (NewEnvBuilder : EnvBuilder Nat)).SetHeaders
        [0]).SetPayload [7]).Build sampleMarshal "1.2").2.headers = [0] ∧
    ((((SetXmlns (some [("ns", "urn:x")]) (NewEnvBuilder : EnvBuilder Nat)).SetHeaders
        [0]).SetPayload [7]).Build sampleMarshal "1.2").1.1 = none :=
  ⟨by decide,
    (Build_error_keeps_builder sampleMarshal
      (((SetXmlns (some [("ns", "urn:x")]) (NewEnvBuilder : EnvBuilder Nat)).SetHeaders
        [0]).SetPayload [7]) "1.2" (by decide)).2.2.1,
    (Build_error_keeps_builder sampleMarshal
      (((SetXmlns (some [("ns", "urn:x")]) (NewEnvBuilder : EnvBuilder Nat)).SetHeaders
        [0]).SetPayload [7]) "1.2" (by decide)).2.2.2.2.2⟩

/-- C4: when `Build` succeeds, the returned envelope has a Header if and only if
the header list is non-empty and its marshalled bytes have non-zero length, and
the content of an attached Header is exactly those bytes. In particular an empty
header list, and a non-empty one that marshals to zero bytes, give no Header. -/
theorem Build_header_attached (marshal : List Item → Bytes × Option Error)
    (bldr : EnvBuilder Item) (version : String) (env : Envelope)
    (h : (bldr.Build marshal version).1 = (some env, none)) :
    (env.header ≠ none ↔
      (0 < bldr.headers.length ∧ 0 < (marshal bldr.headers).1.length)) ∧
    (∀ hdr, env.header = some hdr → hdr.Content = (marshal bldr.headers).1) ∧
    (bldr.headers = [] → env.header = none) ∧
    ((marshal bldr.headers).1.length = 0 → env.header = none) := by
  obtain ⟨-, -, hcase⟩ := Build_ok_cases marshal bldr version env h
  rcases hcase with ⟨hh, henv⟩ | ⟨hh, -, henv⟩
  · subst henv
    simp [baseEnvelope_header, hh]
  · subst henv
    have hlen : 0 < bldr.headers.length := List.length_pos.mpr hh
    by_cases hz : (marshal bldr.headers).1 = []
    · simp [hz, baseEnvelope_header]
    · have hpos : 0 < (marshal bldr.headers).1.length := List.length_pos.mpr hz
      simp only [hz, if_false, setHeader_header]
      refine ⟨by simp [hlen, hpos], ?_, fun h0 => absurd h0 hh, fun h0 => by omega⟩
      intro hdr hhdr
      simp only [Option.some.injEq] at hhdr
      rw [← hhdr]

/-- Witness for C4: the header list `[7, 300]` marshals to the one byte `7`, which
is the content of the attached Header. -/
theorem Build_header_attached_witness :
    (((NewEnvBuilder : EnvBuilder Nat).SetHeaders [7, 300]).Build sampleMarshal "1.2").1
      = (some (Envelope.env12 { HeaderElem := some { Content := [7] },
                                BodyElem := { PayloadElem := [] }, Xmlns := none }), none) ∧
    ∀ hdr, (Envelope.env12 { HeaderElem := some { Content := [7] },
                             BodyElem := { PayloadElem := [] }, Xmlns := none }).header
        = some hdr →
      hdr.Content = (sampleMarshal [7, 300]).1 :=
  ⟨by decide,
    (Build_header_attached sampleMarshal ((NewEnvBuilder : EnvBuilder Nat).SetHeaders [7, 300])
      "1.2" _ (by decide)).2.1⟩

/-- C5: when `Build` succeeds, version "1.1" gives the `Envelope11` variant and
version "1.2" the `Envelope12` variant, and for either version the body content
is exactly the bytes obtained by marshalling the configured payload list. -/
theorem Build_variant_and_body (marshal : List Item → Bytes × Option Error)
    (bldr : EnvBuilder Item) (version : String) (env : Envelope)
    (h : (bldr.Build marshal version).1 = (some env, none)) :
    (version = "1.1" → env.isEnvelope11 = true) ∧
    (version = "1.2" → env.isEnvelope12 = true) ∧
    env.bodyContent = (marshal bldr.payload).1 := by
  obtain ⟨-, -, hcase⟩ := Build_ok_cases marshal bldr version env h
  have hbase11 : version = "1.1" →
      (baseEnvelope bldr version (marshal bldr.payload).1).isEnvelope11 = true := by
    intro hv
    subst hv
    simp [baseEnvelope, V12, Envelope.isEnvelope11]
  have hbase12 : version = "1.2" →
      (baseEnvelope bldr version (marshal bldr.payload).1).isEnvelope12 = true := by
    intro hv
    subst hv
    simp [baseEnvelope, V12, Envelope.isEnvelope12]
  rcases hcase with ⟨-, henv⟩ | ⟨-, -, henv⟩
  · subst henv
    exact ⟨hbase11, hbase12, baseEnvelope_bodyContent _ _ _⟩
  · subst henv
    split
    · exact ⟨hbase11, hbase12, baseEnvelope_bodyContent _ _ _⟩
    · refine ⟨fun hv => ?_, fun hv => ?_, ?_⟩
      · rw [setHeader_isEnvelope11]; exact hbase11 hv
      · rw [setHeader_isEnvelope12]; exact hbase12 hv
      · rw [setHeader_bodyContent]; exact baseEnvelope_bodyContent _ _ _

/-- Witness for C5: the payload `[7, 8]` built for version "1.2", with a header. -/
theorem Build_variant_and_body_witness :
    ((((NewEnvBuilder : EnvBuilder Nat).SetHeaders [9]).SetPayload [7, 8]).Build
        sampleMarshal "1.2").1
      = (some (Envelope.env12 { HeaderElem := some { Content := [9] },
                                BodyElem := { PayloadElem := [7, 8] }, Xmlns := none }), none) ∧
    (Envelope.env12 { HeaderElem := some { Content := [9] },
                      BodyElem := { PayloadElem := [7, 8] }, Xmlns := none }).isEnvelope12
      = true ∧
    (Envelope.env12 { HeaderElem := some { Content := [9] },
                      BodyElem := { PayloadElem := [7, 8] }, Xmlns := none }).bodyContent
      = (sampleMarshal (((NewEnvBuilder : EnvBuilder Nat).SetHeaders [9]).SetPayload
          [7, 8]).payload).1 :=
  ⟨by decide,
    (Build_variant_and_body sampleMarshal
      (((NewEnvBuilder : EnvBuilder Nat).SetHeaders [9]).SetPayload [7, 8]) "1.2" _
      (by decide)).2.1 rfl,
    (Build_variant_and_body sampleMarshal
      (((NewEnvBuilder : EnvBuilder Nat).SetHeaders [9]).SetPayload [7, 8]) "1.2" _
      (by decide)).2.2⟩

/-- C6: `SetPayload` and `SetHeaders` replace the previous list and touch nothing
else. Setting `a` and then `b` gives the builder that setting `b` alone gives, so
`Build` marshals `b` only; `SetPayload` keeps the header list, the namespace
mapping and the stored envelope, `SetHeaders` keeps the payload list, the
namespace mapping and the stored envelope. The value of either setter is the
receiver after the assignment, the builder that the method returns. -/
theorem SetPayload_SetHeaders_replace (bldr : EnvBuilder Item) (a b : List Item) :
    ((bldr.SetPayload a).SetPayload b = bldr.SetPayload b ∧
     (bldr.SetHeaders a).SetHeaders b = bldr.SetHeaders b) ∧
    (((bldr.SetPayload a).SetPayload b).payload = b ∧
     ((bldr.SetHeaders a).SetHeaders b).headers = b) ∧
    (∀ (marshal : List Item → Bytes × Option Error) (version : String),
      ((bldr.SetPayload a).SetPayload b).Build marshal version
        = (bldr.SetPayload b).Build marshal version ∧
      ((bldr.SetHeaders a).SetHeaders b).Build marshal version
        = (bldr.SetHeaders b).Build marshal version) ∧
    ((bldr.SetPayload a).headers = bldr.headers ∧ (bldr.SetPayload a).xmlns = bldr.xmlns ∧
     (bldr.SetPayload a).Env = bldr.Env) ∧
    ((bldr.SetHeaders a).payload = bldr.payload ∧ (bldr.SetHeaders a).xmlns = bldr.xmlns ∧
     (bldr.SetHeaders a).Env = bldr.Env) ∧
    (bldr.SetPayload a = { bldr with payload := a } ∧
     bldr.SetHeaders a = { bldr with headers := a }) := by
  refine ⟨⟨rfl, rfl⟩, ⟨rfl, rfl⟩, fun _ _ => ⟨rfl, rfl⟩, ⟨rfl, rfl, rfl⟩, ⟨rfl, rfl, rfl⟩,
    ⟨rfl, rfl⟩⟩

/-- C7: for a supported version, `Build` fails exactly when marshalling the
payload list fails, or the header list is non-empty and marshalling it fails.
The error returned is the marshaller's own, next to a nil envelope; the payload
is marshalled first, so its error is the one returned when both would fail; and
with an empty header list the outcome of `Build` does not depend on what
marshalling the header list would give. -/
theorem Build_fails_iff (marshal : List Item → Bytes × Option Error)
    (bldr : EnvBuilder Item) (version : String) (hv : isValidVersion version = true) :
    ((bldr.Build marshal version).1.2 ≠ none ↔
      ((marshal bldr.payload).2 ≠ none ∨
       (bldr.headers ≠ [] ∧ (marshal bldr.headers).2 ≠ none))) ∧
    (∀ e, (marshal bldr.payload).2 = some e →
      (bldr.Build marshal version).1 = (none, some e)) ∧
    (∀ e, (marshal bldr.payload).2 = none → bldr.headers ≠ [] →
      (marshal bldr.headers).2 = some e →
      (bldr.Build marshal version).1 = (none, some e)) ∧
    (bldr.headers = [] → (marshal bldr.payload).2 = none →
      (bldr.Build marshal version).1.2 = none) := by
  refine ⟨?_, fun e hp => Build_result_payload_error marshal bldr version hv e hp,
    fun e hp hh he => Build_result_header_error marshal bldr version hv hp hh e he,
    fun hh hp => by rw [Build_result_no_headers marshal bldr version hv hp hh]⟩
  cases hp : (marshal bldr.payload).2 with
  | some e => simp [Build_result_payload_error marshal bldr version hv e hp]
  | none =>
    by_cases hh : bldr.headers = []
    · simp [Build_result_no_headers marshal bldr version hv hp hh, hh]
    · cases he : (marshal bldr.headers).2 with
      | some e => simp [Build_result_header_error marshal bldr version hv hp hh e he, hh]
      | none => simp [Build_result_headers_ok marshal bldr version hv hp hh he]

/-- Witness for C7: payload and headers both rejected by the sample marshaller;
the error of the payload is returned. -/
theorem Build_fails_iff_witness :
    isValidVersion "1.1" = true ∧
    (sampleMarshal (((NewEnvBuilder : EnvBuilder Nat).SetHeaders [0]).SetPayload
        [0, 1]).payload).2 = some (Error.other "unsupported type") ∧
    ((((NewEnvBuilder : EnvBuilder Nat).SetHeaders [0]).SetPayload [0, 1]).Build
        sampleMarshal "1.1").1 = (none, some (Error.other "unsupported type")) :=
  ⟨by decide, by decide,
    (Build_fails_iff sampleMarshal
      (((NewEnvBuilder : EnvBuilder Nat).SetHeaders [0]).SetPayload [0, 1]) "1.1"
      (by decide)).2.1 _ (by decide)⟩

/-- C8: if `Build(version)` fails with the error `e`, `BuildHTTPRequest(version,
action)` returns the nil request and `e`; if `Build(version)` succeeds with the
envelope `env`, it returns the pair that `env.GetHTTPRequest(action)` returns,
with `action` passed through; the method call is never made through a nil
envelope. -/
theorem BuildHTTPRequest_delegates (marshal : List Item → Bytes × Option Error)
    (GetHTTPRequest : Envelope → String → Option Request × Option Error)
    (bldr : EnvBuilder Item) (version : String) (action : String) :
    (∀ e, (bldr.Build marshal version).1.2 = some e →
      bldr.BuildHTTPRequest marshal GetHTTPRequest version action
        = some ((none, some e), bldr)) ∧
    (∀ env, (bldr.Build marshal version).1 = (some env, none) →
      bldr.BuildHTTPRequest marshal GetHTTPRequest version action
        = some (GetHTTPRequest env action, bldr)) ∧
    bldr.BuildHTTPRequest marshal GetHTTPRequest version action ≠ none := by
  have hs := Build_state marshal bldr version
  have hcases := Build_error_or_ok marshal bldr version
  rcases hb : bldr.Build marshal version with ⟨⟨oenv, oerr⟩, b⟩
  rw [hb] at hs hcases
  simp only at hs hcases
  subst hs
  refine ⟨?_, ?_, ?_⟩
  · intro e he
    simp only at he
    subst he
    simp [EnvBuilder.BuildHTTPRequest, hb]
  · intro env henv
    simp only [Prod.mk.injEq] at henv
    obtain ⟨h1, h2⟩ := henv
    subst h1 h2
    simp [EnvBuilder.BuildHTTPRequest, hb]
  · rcases hcases with ⟨e, he⟩ | ⟨env, he⟩
    · simp only [Prod.mk.injEq] at he
      obtain ⟨h1, h2⟩ := he
      subst h1 h2
      simp [EnvBuilder.BuildHTTPRequest, hb]
    · simp only [Prod.mk.injEq] at he
      obtain ⟨h1, h2⟩ := he
      subst h1 h2
      simp [EnvBuilder.BuildHTTPRequest, hb]

/-- Witness for C8: an unsupported version, with a request constructor that
echoes the action. -/
theorem BuildHTTPRequest_delegates_witness :
    ((NewEnvBuilder : EnvBuilder Nat).Build sampleMarshal "9.9").1.2
      = some Error.ErrInvalidVersion ∧
    (NewEnvBuilder : EnvBuilder Nat).BuildHTTPRequest sampleMarshal
        (fun _ action => (some action, none)) "9.9" "urn:act"
      = some ((none, some Error.ErrInvalidVersion), NewEnvBuilder) :=
  ⟨by decide,
    (BuildHTTPRequest_delegates sampleMarshal (fun _ action => (some action, none))
      (NewEnvBuilder : EnvBuilder Nat) "9.9" "urn:act").1 _ (by decide)⟩

/-- C9: the envelope returned by a successful `Build` has its namespace mapping
set from the builder: it is exactly the mapping given to `SetXmlns` when that
override was supplied, rendered as the extra prefixes next to the envelope
namespace of the version; when no override was supplied the root namespace
declarations are the built-in default alone, the envelope namespace of the
version with no extra prefix. -/
theorem Build_xmlns_override_or_default (marshal : List Item → Bytes × Option Error)
    (namespaceFor : String → String)
    (bldr : EnvBuilder Item) (version : String) (env : Envelope)
    (h : (bldr.Build marshal version).1 = (some env, none)) :
    env.xmlnsOf = bldr.xmlns ∧
    (∀ (m : Option XmlnsMap) (env2 : Envelope),
      ((SetXmlns m bldr).Build marshal version).1 = (some env2, none) → env2.xmlnsOf = m) ∧
    (∀ m : XmlnsMap, bldr.xmlns = some m →
      env.rootNamespaces namespaceFor
        = { envelopeNamespace := namespaceFor version, extraPrefixes := m }) ∧
    (bldr.xmlns = none →
      env.rootNamespaces namespaceFor
        = { envelopeNamespace := namespaceFor version, extraPrefixes := [] }) := by
  have hx := Build_ok_xmlnsOf marshal bldr version env h
  have hver := Build_ok_versionOf marshal bldr version env h
  refine ⟨hx, fun m env2 h2 => Build_ok_xmlnsOf marshal (SetXmlns m bldr) version env2 h2,
    fun m hm => ?_, fun hn => ?_⟩
  · simp [Envelope.rootNamespaces, hx, hm, hver]
  · simp [Envelope.rootNamespaces, hx, hn, hver]

/-- Witness for C9: version "1.2" on a fresh builder, with no override, gives the
SOAP 1.2 envelope namespace alone; after `SetXmlns` the mapping of the envelope
is the one supplied. -/
theorem Build_xmlns_override_or_default_witness :
    ((NewEnvBuilder : EnvBuilder Nat).Build sampleMarshal "1.2").1
      = (some (Envelope.env12 { HeaderElem := none, BodyElem := { PayloadElem := [] },
                                Xmlns := none }), none) ∧
    (Envelope.env12 { HeaderElem := none, BodyElem := { PayloadElem := [] },
                      Xmlns := none }).rootNamespaces sampleNamespaceFor
      = { envelopeNamespace := "http://www.w3.org/2003/05/soap-envelope",
          extraPrefixes := [] } ∧
    ∀ env2 : Envelope,
      ((SetXmlns (some [("ns", "urn:x")]) (NewEnvBuilder : EnvBuilder Nat)).Build
          sampleMarshal "1.2").1 = (some env2, none) →
      env2.xmlnsOf = some [("ns", "urn:x")] :=
  ⟨by decide,
    (Build_xmlns_override_or_default sampleMarshal sampleNamespaceFor
      (NewEnvBuilder : EnvBuilder Nat) "1.2"
      (Envelope.env12 { HeaderElem := none, BodyElem := { PayloadElem := [] }, Xmlns := none })
      (by decide)).2.2.2 rfl,
    (Build_xmlns_override_or_default sampleMarshal sampleNamespaceFor
      (NewEnvBuilder : EnvBuilder Nat) "1.2"
      (Envelope.env12 { HeaderElem := none, BodyElem := { PayloadElem := [] }, Xmlns := none })
      (by decide)).2.1 (some [("ns", "urn:x")])⟩

/-- C10 (the claim fails): with an option that calls `SetHeaders()` the header
list `NewEnvelope` builds from does not have exactly one element, and the
header `0`, which the sample marshaller rejects, is never marshalled: the call
succeeds and attaches no Header. -/
theorem NewEnvelope_option_resets_headers :
    (NewEnvelopeBldr (0 : Nat) 5 [fun b => b.SetHeaders []]).headers.length ≠ 1 ∧
    (sampleMarshal [0]).2 = some (Error.other "unsupported type") ∧
    NewEnvelope sampleMarshal "1.1" 0 5 [fun b => b.SetHeaders []]
      = (some (Envelope.env11 { HeaderElem := none, BodyElem := { PayloadElem := [5] },
                                Xmlns := none }), none) := by
  decide

/-- C10 (amended): `NewEnvelope` returns what `Build(version)` returns on a fresh
builder after `SetHeaders(header)`, `SetPayload(payload)` and the options applied
in order, so a final `SetXmlns` option decides the namespace mapping. When every
option leaves the header list as it found it, as every `SetXmlns` option does,
the header list it builds from is the one-element list of `header`: for a
supported version and a payload that marshals, an error from marshalling that
list is the result, and a Header is attached exactly when that list marshals to
non-empty bytes, which are then its content. -/
theorem NewEnvelope_eq_Build (marshal : List Item → Bytes × Option Error)
    (version : String) (header payload : Item) (opts : List (EnvBuilderOption Item)) :
    NewEnvelope marshal version header payload opts
      = NewEnvelopeSpec marshal version header payload opts ∧
    (∀ (pre : List (EnvBuilderOption Item)) (m : Option XmlnsMap),
      opts = pre ++ [SetXmlns m] → (NewEnvelopeBldr header payload opts).xmlns = m) ∧
    (∀ (m : Option XmlnsMap) (b : EnvBuilder Item), (SetXmlns m b).headers = b.headers) ∧
    ((∀ opt ∈ opts, ∀ b : EnvBuilder Item, (opt b).headers = b.headers) →
      (NewEnvelopeBldr header payload opts).headers = [header] ∧
      (∀ e, isValidVersion version = true →
        (marshal (NewEnvelopeBldr header payload opts).payload).2 = none →
        (marshal [header]).2 = some e →
        NewEnvelope marshal version header payload opts = (none, some e)) ∧
      (∀ env, NewEnvelope marshal version header payload opts = (some env, none) →
        (env.header ≠ none ↔ 0 < (marshal [header]).1.length) ∧
        (∀ hdr, env.header = some hdr → hdr.Content = (marshal [header]).1))) := by
  have hfold : NewEnvelopeBldr header payload opts
      = applyOptsInOrder
          (((NewEnvBuilder : EnvBuilder Item).SetHeaders [header]).SetPayload [payload]) opts :=
    foldl_eq_applyOptsInOrder opts _
  refine ⟨?_, ?_, fun _ _ => rfl, ?_⟩
  · unfold NewEnvelope NewEnvelopeSpec
    rw [hfold]
  · intro pre m hopts
    rw [hfold, hopts, applyOptsInOrder_append]
    rfl
  · intro hopts
    have hhdrs : (NewEnvelopeBldr header payload opts).headers = [header] := by
      rw [hfold, applyOptsInOrder_headers opts _ hopts]
      rfl
    have hne : (NewEnvelopeBldr header payload opts).headers ≠ [] := by
      rw [hhdrs]; exact List.cons_ne_nil _ _
    refine ⟨hhdrs, ?_, ?_⟩
    · intro e hv hp he
      unfold NewEnvelope
      apply Build_result_header_error marshal _ version hv hp hne e
      rw [hhdrs]; exact he
    · intro env henv
      unfold NewEnvelope at henv
      have hhead := Build_ok_header_of_nonempty marshal _ version env henv hne
      rw [hhdrs] at hhead
      by_cases hz : (marshal [header]).1 = []
      · simp [hhead, hz]
      · have hpos : 0 < (marshal [header]).1.length := List.length_pos.mpr hz
        rw [hhead, if_neg hz]
        refine ⟨by simp [hpos], ?_⟩
        intro hdr hhdr
        simp only [Option.some.injEq] at hhdr
        rw [← hhdr]

/-- Witness for C10: two `SetXmlns` options; the header list is the one-element
list of the header and the second mapping is the one in force. -/
theorem NewEnvelope_eq_Build_witness :
    (NewEnvelopeBldr (7 : Nat) 5
        [SetXmlns (some [("a", "urn:a")]), SetXmlns (some [("b", "urn:b")])]).headers = [7] ∧
    (NewEnvelopeBldr (7 : Nat) 5
        [SetXmlns (some [("a", "urn:a")]), SetXmlns (some [("b", "urn:b")])]).xmlns
      = some [("b", "urn:b")] :=
  ⟨((NewEnvelope_eq_Build sampleMarshal "1.1" (7 : Nat) 5
      [SetXmlns (some [("a", "urn:a")]), SetXmlns (some [("b", "urn:b")])]).2.2.2
      (by
        intro opt hopt b
        simp only [List.mem_cons, List.mem_singleton, List.not_mem_nil, or_false] at hopt
        rcases hopt with rfl | rfl <;> rfl)).1,
    (NewEnvelope_eq_Build sampleMarshal "1.1" (7 : Nat) 5
      [SetXmlns (some [("a", "urn:a")]), SetXmlns (some [("b", "urn:b")])]).2.1
      [SetXmlns (some [("a", "urn:a")])] (some [("b", "urn:b")]) rfl⟩

end Soap
